import Mathlib

/-!
Shallow embedding of the physics core of `src/simulator.py`
(class `Simulator`: construction, the four derivative functions, and the
`simulate` run-to-completion loop).  Python floats are modelled by exact
rationals (`ℚ`); the unbounded `while` loop is modelled by a fuel-indexed
iterate `simulateFuel`, with termination of the Python loop expressed as
existence of a fuel after which the loop guard is false.
The pygame drawing code (`show`, `draw_*`, `initialize_drawing_variables`)
is presentation-layer and not part of the embedding.
-/

namespace BlackHoleSim

/-- The state of `simulator.Simulator`: the physical constants fixed by
`__init__` and the four growing trajectory lists. -/
structure Simulator where
  MASS : ℚ
  ENERGY : ℚ
  ANGULAR_MOMENTUM : ℚ
  DTAU : ℚ
  BLACK_HOLE_RADIUS : ℚ
  light_speed : ℚ
  distances : List ℚ
  angles : List ℚ
  speeds : List ℚ
  times : List ℚ
  deriving DecidableEq

/-- Default value of the `dtau` keyword argument of `__init__` (`1 / 100`). -/
def default_dtau : ℚ := 1 / 100

/-- Default value of the `black_hole_radius` keyword argument of `__init__` (`5`). -/
def default_black_hole_radius : ℚ := 5

/-- `Simulator.__init__` (src/simulator.py lines 6-38): stores the constants
and seeds the four trajectory lists with the starting values, `times` with `[0]`,
and sets `light_speed = 1`. -/
def Simulator.init (mass energy angular_momentum starting_distance starting_angle
    starting_speed dtau black_hole_radius : ℚ) : Simulator :=
  { MASS := mass
    ENERGY := energy
    ANGULAR_MOMENTUM := angular_momentum
    DTAU := dtau
    BLACK_HOLE_RADIUS := black_hole_radius
    light_speed := 1
    distances := [starting_distance]
    angles := [starting_angle]
    speeds := [starting_speed]
    times := [0] }

/-- Python `l[-1]` on the (always nonempty) trajectory lists: the last element,
with an irrelevant default for the empty list. -/
def lastElem (l : List ℚ) : ℚ := l.getLastD 0

/-- `get_dr_dtau` (line 241): the derivative of distance is the speed. -/
def Simulator.get_dr_dtau (_s : Simulator) (speed : ℚ) : ℚ := speed

/-- `get_dv_dtau` (line 253): `ANGULAR_MOMENTUM*2 / distance**3
- MASS * light_speed**2 / distance**2 - (3 * ANGULAR_MOMENTUM**2 * MASS) / distance**4`. -/
def Simulator.get_dv_dtau (s : Simulator) (distance : ℚ) : ℚ :=
  s.ANGULAR_MOMENTUM * 2 / distance ^ 3 - s.MASS * s.light_speed ^ 2 / distance ^ 2
    - (3 * s.ANGULAR_MOMENTUM ^ 2 * s.MASS) / distance ^ 4

/-- `get_dt_dtau` (line 265): `ENERGY / (1 - (2 * MASS / distance))`. -/
def Simulator.get_dt_dtau (s : Simulator) (distance : ℚ) : ℚ :=
  s.ENERGY / (1 - (2 * s.MASS / distance))

/-- `get_dphi_dtau` (line 277): `ANGULAR_MOMENTUM / distance ** 2`. -/
def Simulator.get_dphi_dtau (s : Simulator) (distance : ℚ) : ℚ :=
  s.ANGULAR_MOMENTUM / distance ^ 2

/-- One iteration of the body of the `while` loop in `simulate`
(lines 84-94): all four derivatives are computed from the last elements of
the current lists, then one value is appended to each list. -/
def Simulator.stepOnce (s : Simulator) : Simulator :=
  let dr_dtau := s.get_dr_dtau (lastElem s.speeds)
  let dv_dtau := s.get_dv_dtau (lastElem s.distances)
  let dphi_dtau := s.get_dphi_dtau (lastElem s.distances)
  let dt_dtau := s.get_dt_dtau (lastElem s.distances)
  { s with
    speeds := s.speeds ++ [lastElem s.speeds + dv_dtau * s.DTAU]
    distances := s.distances ++ [lastElem s.distances + dr_dtau * s.DTAU]
    angles := s.angles ++ [lastElem s.angles + dphi_dtau * s.DTAU]
    times := s.times ++ [lastElem s.times + dt_dtau * s.DTAU] }

/-- Fuel-indexed model of `simulate` (line 80): iterate the loop body while
`distances[-1] > BLACK_HOLE_RADIUS`, for at most `n` iterations.  The Python
loop, when it terminates, behaves as `simulateFuel n` for every sufficiently
large `n`. -/
def Simulator.simulateFuel : Nat → Simulator → Simulator
  | 0, s => s
  | n + 1, s =>
      if s.BLACK_HOLE_RADIUS < lastElem s.distances then
        Simulator.simulateFuel n s.stepOnce
      else s

/-- The loop guard of `simulate` is false: the particle has been captured. -/
def Simulator.captured (s : Simulator) : Prop :=
  lastElem s.distances ≤ s.BLACK_HOLE_RADIUS

instance (s : Simulator) : Decidable s.captured := by
  unfold Simulator.captured; infer_instance

/-- The Python `simulate` call terminates from state `s`: some finite fuel
reaches a state where the loop guard is false. -/
def Simulator.Terminates (s : Simulator) : Prop :=
  ∃ n : Nat, (Simulator.simulateFuel n s).captured

/-! ### Helper lemmas about `lastElem` and the loop -/

theorem lastElem_concat (l : List ℚ) (x : ℚ) : lastElem (l ++ [x]) = x := by
  simp [lastElem, List.getLastD_concat]

theorem lastElem_mem {l : List ℚ} (h : l ≠ []) : lastElem l ∈ l := by
  rw [lastElem, List.getLastD_eq_getLast?, List.getLast?_eq_getLast l h]
  exact List.getLast_mem h

theorem lastElem_eq_getD {l : List ℚ} (h : l ≠ []) :
    lastElem l = l.getD (l.length - 1) 0 := by
  rw [lastElem, List.getLastD_eq_getLast?, List.getLast?_eq_getLast l h, Option.getD_some,
    List.getLast_eq_getElem, List.getD_eq_getElem]

/-- The loop body does not touch the physical constants. -/
theorem stepOnce_params (s : Simulator) :
    s.stepOnce.MASS = s.MASS ∧ s.stepOnce.ENERGY = s.ENERGY ∧
    s.stepOnce.ANGULAR_MOMENTUM = s.ANGULAR_MOMENTUM ∧ s.stepOnce.DTAU = s.DTAU ∧
    s.stepOnce.BLACK_HOLE_RADIUS = s.BLACK_HOLE_RADIUS ∧
    s.stepOnce.light_speed = s.light_speed := by
  simp [Simulator.stepOnce]

theorem simulateFuel_zero (s : Simulator) : Simulator.simulateFuel 0 s = s := rfl

theorem simulateFuel_succ (n : Nat) (s : Simulator) :
    Simulator.simulateFuel (n + 1) s =
      if s.BLACK_HOLE_RADIUS < lastElem s.distances then
        Simulator.simulateFuel n s.stepOnce
      else s := rfl

/-- Once the guard is false the loop never runs again: `simulateFuel` fixes
captured states. -/
theorem simulateFuel_of_captured {s : Simulator} (h : s.captured) (n : Nat) :
    Simulator.simulateFuel n s = s := by
  cases n with
  | zero => rfl
  | succ n =>
      rw [simulateFuel_succ, if_neg]
      exact not_lt.mpr h

/-- Membership in `distances` is preserved by the loop (the loop only appends). -/
theorem mem_distances_simulateFuel {x : ℚ} :
    ∀ (n : Nat) (s : Simulator), x ∈ s.distances →
      x ∈ (Simulator.simulateFuel n s).distances := by
  intro n
  induction n with
  | zero => intro s hx; exact hx
  | succ n ih =>
      intro s hx
      rw [simulateFuel_succ]
      split
      · exact ih _ (by simp [Simulator.stepOnce]; exact Or.inl hx)
      · exact hx

/-- The `distances` list stays nonempty through the loop. -/
theorem distances_ne_nil_simulateFuel :
    ∀ (n : Nat) (s : Simulator), s.distances ≠ [] →
      (Simulator.simulateFuel n s).distances ≠ [] := by
  intro n
  induction n with
  | zero => intro s hs; exact hs
  | succ n ih =>
      intro s hs
      rw [simulateFuel_succ]
      split
      · exact ih _ (by simp [Simulator.stepOnce])
      · exact hs

/-- The physical constants are preserved by the loop. -/
theorem simulateFuel_params :
    ∀ (n : Nat) (s : Simulator),
      (Simulator.simulateFuel n s).MASS = s.MASS ∧
      (Simulator.simulateFuel n s).ENERGY = s.ENERGY ∧
      (Simulator.simulateFuel n s).ANGULAR_MOMENTUM = s.ANGULAR_MOMENTUM ∧
      (Simulator.simulateFuel n s).DTAU = s.DTAU ∧
      (Simulator.simulateFuel n s).BLACK_HOLE_RADIUS = s.BLACK_HOLE_RADIUS ∧
      (Simulator.simulateFuel n s).light_speed = s.light_speed := by
  intro n
  induction n with
  | zero => intro s; exact ⟨rfl, rfl, rfl, rfl, rfl, rfl⟩
  | succ n ih =>
      intro s
      rw [simulateFuel_succ]
      split
      · have h := ih s.stepOnce
        simpa [Simulator.stepOnce] using h
      · exact ⟨rfl, rfl, rfl, rfl, rfl, rfl⟩

/-! ### C1: the radial-speed derivative formula -/

/-- C1.  For every distance `r`, `get_dv_dtau` returns exactly
`2·L/r³ − M·c²/r² − 3·L²·M/r⁴` where `L` is the stored angular momentum,
`M` the mass and `c` the light speed — with the factor of 2 (not `L²`) on
the first term, exactly as the spec's formula. -/
theorem C1_dv_dtau_formula (s : Simulator) (r : ℚ) :
    s.get_dv_dtau r =
      2 * s.ANGULAR_MOMENTUM / r ^ 3 - s.MASS * s.light_speed ^ 2 / r ^ 2
        - 3 * s.ANGULAR_MOMENTUM ^ 2 * s.MASS / r ^ 4 := by
  unfold Simulator.get_dv_dtau
  ring

/-! ### C4: the seed sample -/

/-- C4.  Immediately after construction the seed sample equals the supplied
starting values with no off-by-one shift: `distances[0]` is the starting
distance, `angles[0]` the starting angle, `speeds[0]` the starting speed,
and `times[0] = 0`. -/
theorem C4_seed_sample (mass energy angular_momentum starting_distance starting_angle
    starting_speed dtau black_hole_radius : ℚ) :
    (Simulator.init mass energy angular_momentum starting_distance starting_angle
        starting_speed dtau black_hole_radius).distances.getD 0 0 = starting_distance ∧
    (Simulator.init mass energy angular_momentum starting_distance starting_angle
        starting_speed dtau black_hole_radius).angles.getD 0 0 = starting_angle ∧
    (Simulator.init mass energy angular_momentum starting_distance starting_angle
        starting_speed dtau black_hole_radius).speeds.getD 0 0 = starting_speed ∧
    (Simulator.init mass energy angular_momentum starting_distance starting_angle
        starting_speed dtau black_hole_radius).times.getD 0 0 = 0 :=
  ⟨rfl, rfl, rfl, rfl⟩

/-! ### C7: the four trajectory lists stay parallel -/

/-- The four trajectory lists have equal length. -/
def Simulator.sameLen (s : Simulator) : Prop :=
  s.angles.length = s.distances.length ∧ s.speeds.length = s.distances.length ∧
    s.times.length = s.distances.length

theorem sameLen_stepOnce {s : Simulator} (h : s.sameLen) : s.stepOnce.sameLen := by
  obtain ⟨h1, h2, h3⟩ := h
  simp [Simulator.sameLen, Simulator.stepOnce, h1, h2, h3]

theorem sameLen_simulateFuel :
    ∀ (n : Nat) (s : Simulator), s.sameLen → (Simulator.simulateFuel n s).sameLen := by
  intro n
  induction n with
  | zero => intro s h; exact h
  | succ n ih =>
      intro s h
      rw [simulateFuel_succ]
      split
      · exact ih _ (sameLen_stepOnce h)
      · exact h

/-- C7.  The four trajectory sequences have equal length at every point:
construction seeds each with exactly one element, every loop iteration
appends exactly one element to each, and after any number of loop
iterations from a freshly constructed simulator the four lengths coincide. -/
theorem C7_parallel_lengths (mass energy angular_momentum starting_distance starting_angle
    starting_speed dtau black_hole_radius : ℚ) (n : Nat) (s : Simulator) :
    ((Simulator.init mass energy angular_momentum starting_distance starting_angle
        starting_speed dtau black_hole_radius).distances.length = 1 ∧
      (Simulator.init mass energy angular_momentum starting_distance starting_angle
        starting_speed dtau black_hole_radius).angles.length = 1 ∧
      (Simulator.init mass energy angular_momentum starting_distance starting_angle
        starting_speed dtau black_hole_radius).speeds.length = 1 ∧
      (Simulator.init mass energy angular_momentum starting_distance starting_angle
        starting_speed dtau black_hole_radius).times.length = 1) ∧
    (s.stepOnce.distances.length = s.distances.length + 1 ∧
      s.stepOnce.angles.length = s.angles.length + 1 ∧
      s.stepOnce.speeds.length = s.speeds.length + 1 ∧
      s.stepOnce.times.length = s.times.length + 1) ∧
    (Simulator.simulateFuel n (Simulator.init mass energy angular_momentum starting_distance
        starting_angle starting_speed dtau black_hole_radius)).sameLen := by
  refine ⟨⟨rfl, rfl, rfl, rfl⟩, ?_, ?_⟩
  · simp [Simulator.stepOnce]
  · exact sameLen_simulateFuel n _ ⟨rfl, rfl, rfl⟩

/-! ### C5: starting at or below the capture radius is a valid degenerate case -/

/-- C5.  If the starting distance is at most the capture radius, `simulate`
leaves the simulator exactly as constructed: the trajectory has length 1 and
equals the seed sample, whatever fuel the loop is given. -/
theorem C5_degenerate_run (mass energy angular_momentum starting_distance starting_angle
    starting_speed dtau black_hole_radius : ℚ)
    (h : starting_distance ≤ black_hole_radius) (n : Nat) :
    Simulator.simulateFuel n (Simulator.init mass energy angular_momentum starting_distance
        starting_angle starting_speed dtau black_hole_radius) =
      Simulator.init mass energy angular_momentum starting_distance starting_angle
        starting_speed dtau black_hole_radius ∧
    (Simulator.simulateFuel n (Simulator.init mass energy angular_momentum starting_distance
        starting_angle starting_speed dtau black_hole_radius)).distances =
      [starting_distance] ∧
    (Simulator.simulateFuel n (Simulator.init mass energy angular_momentum starting_distance
        starting_angle starting_speed dtau black_hole_radius)).angles = [starting_angle] ∧
    (Simulator.simulateFuel n (Simulator.init mass energy angular_momentum starting_distance
        starting_angle starting_speed dtau black_hole_radius)).speeds = [starting_speed] ∧
    (Simulator.simulateFuel n (Simulator.init mass energy angular_momentum starting_distance
        starting_angle starting_speed dtau black_hole_radius)).times = [(0 : ℚ)] := by
  have hc : (Simulator.init mass energy angular_momentum starting_distance starting_angle
      starting_speed dtau black_hole_radius).captured := h
  rw [simulateFuel_of_captured hc]
  exact ⟨rfl, rfl, rfl, rfl, rfl⟩

/-- Witness for C5 at the spec's concrete scenario: starting distance 2 with
the default capture radius 5 yields the seed trajectory unchanged. -/
theorem C5_degenerate_run_witness :
    Simulator.simulateFuel 3 (Simulator.init 1 2 15 2 3 0 default_dtau
        default_black_hole_radius) =
      Simulator.init 1 2 15 2 3 0 default_dtau default_black_hole_radius :=
  (C5_degenerate_run 1 2 15 2 3 0 default_dtau default_black_hole_radius
    (by norm_num [default_black_hole_radius]) 3).1

/-! ### C10: a second `simulate` call is a no-op -/

/-- C10.  After a `simulate` call has returned (the state reached at some fuel
is captured), running the loop again with any amount of fuel leaves the
simulator, in particular all four trajectory lists, unchanged. -/
theorem C10_second_call_noop (s : Simulator) (n : Nat)
    (h : (Simulator.simulateFuel n s).captured) (m : Nat) :
    Simulator.simulateFuel m (Simulator.simulateFuel n s) = Simulator.simulateFuel n s :=
  simulateFuel_of_captured h m

/-- Witness for C10: a concretely captured run (starting distance 2, capture
radius 5) on which a second call changes nothing. -/
theorem C10_second_call_noop_witness :
    (Simulator.simulateFuel 0 (Simulator.init 1 1 0 2 0 0 1 5)).captured ∧
      Simulator.simulateFuel 4 (Simulator.simulateFuel 0 (Simulator.init 1 1 0 2 0 0 1 5)) =
        Simulator.simulateFuel 0 (Simulator.init 1 1 0 2 0 0 1 5) := by
  have h : (Simulator.simulateFuel 0 (Simulator.init 1 1 0 2 0 0 1 5)).captured := by
    show lastElem [(2 : ℚ)] ≤ 5
    norm_num [lastElem]
  exact ⟨h, C10_second_call_noop (Simulator.init 1 1 0 2 0 0 1 5) 0 h 4⟩

/-! ### C9: the integration is deterministic -/

/-- C9.  Two simulators constructed from identical parameter tuples produce
identical trajectories after any number of loop iterations: the physics core
has no hidden randomness. -/
theorem C9_deterministic (m1 e1 L1 d1 a1 v1 dt1 R1 m2 e2 L2 d2 a2 v2 dt2 R2 : ℚ)
    (h : (m1, e1, L1, d1, a1, v1, dt1, R1) = (m2, e2, L2, d2, a2, v2, dt2, R2)) (n : Nat) :
    Simulator.simulateFuel n (Simulator.init m1 e1 L1 d1 a1 v1 dt1 R1) =
      Simulator.simulateFuel n (Simulator.init m2 e2 L2 d2 a2 v2 dt2 R2) := by
  simp only [Prod.mk.injEq] at h
  obtain ⟨rfl, rfl, rfl, rfl, rfl, rfl, rfl, rfl⟩ := h
  rfl

/-- Witness for C9 at the parameters of `main.py`. -/
theorem C9_deterministic_witness :
    Simulator.simulateFuel 5 (Simulator.init 1 2 15 30 (314 / 100) 0 default_dtau
        default_black_hole_radius) =
      Simulator.simulateFuel 5 (Simulator.init 1 2 15 30 (314 / 100) 0 default_dtau
        default_black_hole_radius) :=
  C9_deterministic 1 2 15 30 (314 / 100) 0 default_dtau default_black_hole_radius
    1 2 15 30 (314 / 100) 0 default_dtau default_black_hole_radius rfl 5

/-! ### C3: the loop guard, partial correctness, and non-termination -/

/-- A configuration refuting guaranteed termination: zero mass and zero
angular momentum with zero starting speed keep the distance constant at 10,
forever above the capture radius 5 yet above `2·mass = 0` throughout. -/
def c3config : Simulator := Simulator.init 0 0 0 10 0 0 (1 / 100) 5

/-- Invariant of `c3config` under the loop body: constants unchanged, last
speed 0, and every recorded distance equal to 10. -/
def ConstTen (s : Simulator) : Prop :=
  s.MASS = 0 ∧ s.ANGULAR_MOMENTUM = 0 ∧ s.BLACK_HOLE_RADIUS = 5 ∧
    lastElem s.speeds = 0 ∧ lastElem s.distances = 10 ∧ ∀ x ∈ s.distances, x = 10

theorem constTen_stepOnce {s : Simulator} (h : ConstTen s) : ConstTen s.stepOnce := by
  obtain ⟨hM, hL, hR, hv, hr, hall⟩ := h
  refine ⟨hM, hL, hR, ?_, ?_, ?_⟩
  · simp [Simulator.stepOnce, Simulator.get_dv_dtau, lastElem_concat, hv, hM, hL]
  · simp [Simulator.stepOnce, Simulator.get_dr_dtau, lastElem_concat, hv, hr]
  · intro x hx
    simp only [Simulator.stepOnce, List.mem_append, List.mem_singleton] at hx
    rcases hx with hx | hx
    · exact hall x hx
    · rw [hx, Simulator.get_dr_dtau, hv, hr]; ring

theorem constTen_simulateFuel :
    ∀ (n : Nat) (s : Simulator), ConstTen s → ConstTen (Simulator.simulateFuel n s) := by
  intro n
  induction n with
  | zero => intro s h; exact h
  | succ n ih =>
      intro s h
      rw [simulateFuel_succ]
      split
      · exact ih _ (constTen_stepOnce h)
      · exact h

theorem constTen_c3config : ConstTen c3config := by
  refine ⟨rfl, rfl, rfl, rfl, rfl, ?_⟩
  intro x hx
  simpa [c3config, Simulator.init] using hx

/-- Counterexample to C3 as stated: `c3config` has starting distance 10
above its capture radius 5, every distance it ever records stays strictly
above `2·mass = 0`, yet `simulate` never terminates — no fuel makes the loop
guard false. -/
theorem C3_counterexample :
    c3config.distances.getD 0 0 = 10 ∧ c3config.BLACK_HOLE_RADIUS = 5 ∧
      c3config.MASS = 0 ∧
      (∀ (n : Nat), ∀ x ∈ (Simulator.simulateFuel n c3config).distances,
        2 * c3config.MASS < x) ∧
      ¬ c3config.Terminates := by
  refine ⟨rfl, rfl, rfl, ?_, ?_⟩
  · intro n x hx
    have h := (constTen_simulateFuel n c3config constTen_c3config).2.2.2.2.2 x hx
    rw [h]
    norm_num [c3config, Simulator.init]
  · rintro ⟨n, hn⟩
    have h := constTen_simulateFuel n c3config constTen_c3config
    have hlast := h.2.2.2.2.1
    have hR := h.2.2.1
    rw [Simulator.captured, hlast, hR] at hn
    norm_num at hn

/-- C3 (amended).  The loop repeats exactly while the most recently appended
distance exceeds the capture radius — one more unit of fuel runs the body
precisely when the guard holds — and whenever the loop has terminated the
last appended distance is ≤ the capture radius.  (Termination itself is not
guaranteed by `startingDistance > captureRadius` and `distance > 2·mass`
throughout, as `C3_counterexample` shows.) -/
theorem C3_guard_and_partial_correctness (s : Simulator) (n : Nat) :
    (¬ s.captured → Simulator.simulateFuel (n + 1) s = Simulator.simulateFuel n s.stepOnce) ∧
    (s.captured → Simulator.simulateFuel (n + 1) s = s) ∧
    ((Simulator.simulateFuel n s).captured →
      lastElem (Simulator.simulateFuel n s).distances ≤ s.BLACK_HOLE_RADIUS) := by
  refine ⟨?_, ?_, ?_⟩
  · intro h
    rw [simulateFuel_succ, if_pos]
    exact lt_of_not_le h
  · intro h
    rw [simulateFuel_succ, if_neg]
    exact not_lt.mpr h
  · intro h
    exact ((simulateFuel_params n s).2.2.2.2.1) ▸ h

/-- Witness for C3's amended theorem: both branches of the guard and the
post-condition, each at a concrete simulator. -/
theorem C3_guard_and_partial_correctness_witness :
    Simulator.simulateFuel 1 (Simulator.init 1 1 0 2 0 0 1 5) =
        Simulator.init 1 1 0 2 0 0 1 5 ∧
      Simulator.simulateFuel 1 c3config = Simulator.simulateFuel 0 c3config.stepOnce ∧
      lastElem (Simulator.simulateFuel 0 (Simulator.init 1 1 0 2 0 0 1 5)).distances ≤ 5 := by
  have hcap : (Simulator.init 1 1 0 2 0 0 1 5).captured := by
    show lastElem [(2 : ℚ)] ≤ 5
    norm_num [lastElem]
  have hnot : ¬ c3config.captured := by
    show ¬ (lastElem [(10 : ℚ)] ≤ 5)
    norm_num [lastElem]
  exact ⟨(C3_guard_and_partial_correctness (Simulator.init 1 1 0 2 0 0 1 5) 0).2.1 hcap,
    (C3_guard_and_partial_correctness c3config 0).1 hnot,
    (C3_guard_and_partial_correctness (Simulator.init 1 1 0 2 0 0 1 5) 0).2.2 hcap⟩

/-! ### C2: the update rule is explicit first-order Euler -/

/-- Sample `i+1` is obtained from sample `i` by one explicit Euler update:
each of the four scalars advances by its own derivative — computed by the
code's derivative functions from sample `i`'s distance and speed only —
times the step size. -/
def Simulator.eulerChainAt (s : Simulator) (i : Nat) : Prop :=
  s.distances.getD (i + 1) 0 =
      s.distances.getD i 0 + s.get_dr_dtau (s.speeds.getD i 0) * s.DTAU ∧
    s.speeds.getD (i + 1) 0 =
      s.speeds.getD i 0 + s.get_dv_dtau (s.distances.getD i 0) * s.DTAU ∧
    s.angles.getD (i + 1) 0 =
      s.angles.getD i 0 + s.get_dphi_dtau (s.distances.getD i 0) * s.DTAU ∧
    s.times.getD (i + 1) 0 =
      s.times.getD i 0 + s.get_dt_dtau (s.distances.getD i 0) * s.DTAU

/-- Invariant carried through the loop: nonempty parallel lists every
adjacent pair of which is linked by one explicit Euler update. -/
def Simulator.goodChain (s : Simulator) : Prop :=
  s.distances ≠ [] ∧ s.sameLen ∧
    ∀ i, i + 1 < s.distances.length → s.eulerChainAt i

theorem stepOnce_get_dr (s : Simulator) (x : ℚ) :
    s.stepOnce.get_dr_dtau x = s.get_dr_dtau x := rfl

theorem stepOnce_get_dv (s : Simulator) (x : ℚ) :
    s.stepOnce.get_dv_dtau x = s.get_dv_dtau x := by
  simp [Simulator.stepOnce, Simulator.get_dv_dtau]

theorem stepOnce_get_dphi (s : Simulator) (x : ℚ) :
    s.stepOnce.get_dphi_dtau x = s.get_dphi_dtau x := by
  simp [Simulator.stepOnce, Simulator.get_dphi_dtau]

theorem stepOnce_get_dt (s : Simulator) (x : ℚ) :
    s.stepOnce.get_dt_dtau x = s.get_dt_dtau x := by
  simp [Simulator.stepOnce, Simulator.get_dt_dtau]

theorem stepOnce_distances (s : Simulator) :
    s.stepOnce.distances =
      s.distances ++ [lastElem s.distances + s.get_dr_dtau (lastElem s.speeds) * s.DTAU] :=
  rfl

theorem stepOnce_speeds (s : Simulator) :
    s.stepOnce.speeds =
      s.speeds ++ [lastElem s.speeds + s.get_dv_dtau (lastElem s.distances) * s.DTAU] :=
  rfl

theorem stepOnce_angles (s : Simulator) :
    s.stepOnce.angles =
      s.angles ++ [lastElem s.angles + s.get_dphi_dtau (lastElem s.distances) * s.DTAU] :=
  rfl

theorem stepOnce_times (s : Simulator) :
    s.stepOnce.times =
      s.times ++ [lastElem s.times + s.get_dt_dtau (lastElem s.distances) * s.DTAU] :=
  rfl

theorem stepOnce_DTAU (s : Simulator) : s.stepOnce.DTAU = s.DTAU := rfl

theorem goodChain_stepOnce {s : Simulator} (h : s.goodChain) : s.stepOnce.goodChain := by
  obtain ⟨hne, ⟨ha, hv, ht⟩, hchain⟩ := h
  have hlen : 0 < s.distances.length := List.length_pos.mpr hne
  have hvne : s.speeds ≠ [] := List.ne_nil_of_length_pos (hv ▸ hlen)
  have hane : s.angles ≠ [] := List.ne_nil_of_length_pos (ha ▸ hlen)
  have htne : s.times ≠ [] := List.ne_nil_of_length_pos (ht ▸ hlen)
  refine ⟨by simp [Simulator.stepOnce], sameLen_stepOnce ⟨ha, hv, ht⟩, ?_⟩
  intro i hi
  have hlen' : s.stepOnce.distances.length = s.distances.length + 1 := by
    simp [Simulator.stepOnce]
  rw [hlen'] at hi
  unfold Simulator.eulerChainAt
  rw [stepOnce_distances, stepOnce_speeds, stepOnce_angles, stepOnce_times, stepOnce_DTAU]
  simp only [stepOnce_get_dr, stepOnce_get_dv, stepOnce_get_dphi, stepOnce_get_dt]
  rcases Nat.lt_succ_iff_lt_or_eq.mp hi with hi' | hi'
  · -- the pair (i, i+1) lies inside the old lists
    have hid : i < s.distances.length := Nat.lt_of_succ_lt hi'
    obtain ⟨c1, c2, c3, c4⟩ := hchain i hi'
    refine ⟨?_, ?_, ?_, ?_⟩
    · rw [List.getD_append _ _ _ _ hi', List.getD_append _ _ _ _ hid,
        List.getD_append _ _ _ _ (hv ▸ hid : i < s.speeds.length)]
      exact c1
    · rw [List.getD_append _ _ _ _ (hv ▸ hi' : i + 1 < s.speeds.length),
        List.getD_append _ _ _ _ (hv ▸ hid : i < s.speeds.length),
        List.getD_append _ _ _ _ hid]
      exact c2
    · rw [List.getD_append _ _ _ _ (ha ▸ hi' : i + 1 < s.angles.length),
        List.getD_append _ _ _ _ (ha ▸ hid : i < s.angles.length),
        List.getD_append _ _ _ _ hid]
      exact c3
    · rw [List.getD_append _ _ _ _ (ht ▸ hi' : i + 1 < s.times.length),
        List.getD_append _ _ _ _ (ht ▸ hid : i < s.times.length),
        List.getD_append _ _ _ _ hid]
      exact c4
  · -- the new pair: old last element and the freshly appended one
    have hieq : i = s.distances.length - 1 := by omega
    have hid : i < s.distances.length := by omega
    have happ : ∀ (l : List ℚ) (x : ℚ), l.length = s.distances.length →
        (l ++ [x]).getD (i + 1) 0 = x := by
      intro l x hl
      rw [List.getD_append_right _ _ _ _ (by omega : l.length ≤ i + 1)]
      have h0 : i + 1 - l.length = 0 := by omega
      rw [h0]
      rfl
    have hgetD : ∀ (l : List ℚ) (x : ℚ), l.length = s.distances.length → l ≠ [] →
        (l ++ [x]).getD i 0 = lastElem l := by
      intro l x hl hlne
      rw [List.getD_append _ _ _ _ (hl ▸ hid), lastElem_eq_getD hlne, hl, ← hieq]
    refine ⟨?_, ?_, ?_, ?_⟩
    · rw [happ _ _ rfl, hgetD _ _ rfl hne, hgetD _ _ hv hvne]
    · rw [happ _ _ hv, hgetD _ _ hv hvne, hgetD _ _ rfl hne]
    · rw [happ _ _ ha, hgetD _ _ ha hane, hgetD _ _ rfl hne]
    · rw [happ _ _ ht, hgetD _ _ ht htne, hgetD _ _ rfl hne]

theorem goodChain_simulateFuel :
    ∀ (n : Nat) (s : Simulator), s.goodChain → (Simulator.simulateFuel n s).goodChain := by
  intro n
  induction n with
  | zero => intro s h; exact h
  | succ n ih =>
      intro s h
      rw [simulateFuel_succ]
      split
      · exact ih _ (goodChain_stepOnce h)
      · exact h

/-- C2.  Along any run from a freshly constructed simulator, each sample
`i+1` arises from sample `i` by the explicit Euler rule
`value[i+1] = value[i] + derivative(value[i]) · stepSize` for all four
scalars, the derivatives being evaluated only at sample `i`'s distance and
speed — no derivative at step `i+1` enters its own update. -/
theorem C2_explicit_euler (mass energy angular_momentum starting_distance starting_angle
    starting_speed dtau black_hole_radius : ℚ) (n i : Nat)
    (h : i + 1 < (Simulator.simulateFuel n (Simulator.init mass energy angular_momentum
        starting_distance starting_angle starting_speed dtau
        black_hole_radius)).distances.length) :
    (Simulator.simulateFuel n (Simulator.init mass energy angular_momentum starting_distance
        starting_angle starting_speed dtau black_hole_radius)).eulerChainAt i := by
  have hg : (Simulator.init mass energy angular_momentum starting_distance starting_angle
      starting_speed dtau black_hole_radius).goodChain := by
    refine ⟨by simp [Simulator.init], ⟨rfl, rfl, rfl⟩, ?_⟩
    intro i hi
    simp [Simulator.init] at hi
  exact (goodChain_simulateFuel n _ hg).2.2 i h

/-- Witness for C2: one concrete step (the `main.py` physics with step size 1
and capture radius 5) satisfies the Euler recurrence at index 0. -/
theorem C2_explicit_euler_witness :
    0 + 1 < (Simulator.simulateFuel 1 (Simulator.init 1 2 15 30 3 0 1 5)).distances.length ∧
      (Simulator.simulateFuel 1 (Simulator.init 1 2 15 30 3 0 1 5)).eulerChainAt 0 := by
  have h : 0 + 1 <
      (Simulator.simulateFuel 1 (Simulator.init 1 2 15 30 3 0 1 5)).distances.length := by
    norm_num [Simulator.simulateFuel, Simulator.stepOnce, Simulator.init, lastElem]
  exact ⟨h, C2_explicit_euler 1 2 15 30 3 0 1 5 1 0 h⟩

/-! ### C8: coordinate time is non-decreasing -/

/-- Chain of `≤` along the `times` list is preserved by the loop: every
coordinate-time derivative is evaluated at a distance that has just passed
the loop guard, hence exceeds the (positive) capture radius, and — using
the hypothesis that every recorded distance stays above the Schwarzschild
radius `2·MASS` — the derivative `E / (1 − 2M/r)` is positive, so each
appended time is at least the previous one. -/
theorem chain_times_simulateFuel :
    ∀ (n : Nat) (s : Simulator), 0 < s.ENERGY → 0 < s.DTAU →
      0 < s.BLACK_HOLE_RADIUS → s.distances ≠ [] →
      (∀ x ∈ (Simulator.simulateFuel n s).distances, 2 * s.MASS < x) →
      List.Chain' (· ≤ ·) s.times →
      List.Chain' (· ≤ ·) (Simulator.simulateFuel n s).times := by
  intro n
  induction n with
  | zero => intro s _ _ _ _ _ hchain; exact hchain
  | succ n ih =>
      intro s hE hdt hR hne hr hchain
      rw [simulateFuel_succ]
      rw [simulateFuel_succ] at hr
      split
      · rename_i hguard
        rw [if_pos hguard] at hr
        have hr' : ∀ x ∈ (Simulator.simulateFuel n s.stepOnce).distances,
            2 * s.stepOnce.MASS < x := by
          intro x hx
          exact (stepOnce_params s).1 ▸ hr x hx
        refine ih s.stepOnce ((stepOnce_params s).2.1 ▸ hE) ((stepOnce_params s).2.2.2.1 ▸ hdt)
          ((stepOnce_params s).2.2.2.2.1 ▸ hR) (by rw [stepOnce_distances]; simp) hr' ?_
        -- the appended time is at least the previous last time
        rw [stepOnce_times, List.chain'_append]
        refine ⟨hchain, List.chain'_singleton _, ?_⟩
        intro x hx y hy
        simp only [List.head?_cons, Option.mem_some_iff] at hy
        have hx' : x = lastElem s.times := by
          simp only [Option.mem_def] at hx
          simp [lastElem, List.getLastD_eq_getLast?, hx]
        -- the evaluation point just passed the guard, so it is positive
        have hpos : 0 < lastElem s.distances := lt_trans hR hguard
        have hrmem : lastElem s.distances ∈ (Simulator.simulateFuel n s.stepOnce).distances := by
          refine mem_distances_simulateFuel n s.stepOnce ?_
          rw [stepOnce_distances]
          exact List.mem_append_left _ (lastElem_mem hne)
        have hschw : 2 * s.MASS < lastElem s.distances :=
          (stepOnce_params s).1 ▸ hr' _ hrmem
        have hden : 0 < 1 - 2 * s.MASS / lastElem s.distances := by
          have h1 : 2 * s.MASS / lastElem s.distances < 1 :=
            (div_lt_one hpos).mpr hschw
          linarith
        have hdtpos : 0 < s.get_dt_dtau (lastElem s.distances) :=
          div_pos hE hden
        rw [hx', ← hy]
        nlinarith [mul_pos hdtpos hdt]
      · exact hchain

/-- C8.  For every run with positive energy and positive step size — over the
spec's parameter domain, where the capture radius is positive — in which
every recorded distance stays strictly above `2·mass`, the `times` sequence
is non-decreasing at every index: each coordinate-time derivative is
evaluated at a distance that passed the guard, so `r > captureRadius > 0`,
and with `r > 2·mass` the derivative `E / (1 − 2M/r)` is positive. -/
theorem C8_times_monotone (mass energy angular_momentum starting_distance starting_angle
    starting_speed dtau black_hole_radius : ℚ) (n : Nat)
    (hE : 0 < energy) (hdt : 0 < dtau) (hR : 0 < black_hole_radius)
    (hr : ∀ x ∈ (Simulator.simulateFuel n (Simulator.init mass energy angular_momentum
        starting_distance starting_angle starting_speed dtau
        black_hole_radius)).distances, 2 * mass < x) :
    ∀ i, i + 1 < (Simulator.simulateFuel n (Simulator.init mass energy angular_momentum
        starting_distance starting_angle starting_speed dtau
        black_hole_radius)).times.length →
      (Simulator.simulateFuel n (Simulator.init mass energy angular_momentum starting_distance
          starting_angle starting_speed dtau black_hole_radius)).times.getD i 0 ≤
        (Simulator.simulateFuel n (Simulator.init mass energy angular_momentum starting_distance
          starting_angle starting_speed dtau black_hole_radius)).times.getD (i + 1) 0 := by
  have hchain := chain_times_simulateFuel n
    (Simulator.init mass energy angular_momentum starting_distance starting_angle
      starting_speed dtau black_hole_radius) hE hdt hR (by simp [Simulator.init]) hr
    (List.chain'_singleton _)
  intro i hi
  have h := List.chain'_iff_get.mp hchain i (by omega)
  rw [List.getD_eq_getElem _ _ (by omega), List.getD_eq_getElem _ _ hi]
  simpa using h

/-- Witness for C8 at a concrete capturing run
(mass 1, energy 2, starting distance 4, capture radius 3). -/
theorem C8_times_monotone_witness :
    (Simulator.simulateFuel 1 (Simulator.init 1 2 0 4 0 (-1) 1 3)).times.getD 0 0 ≤
      (Simulator.simulateFuel 1 (Simulator.init 1 2 0 4 0 (-1) 1 3)).times.getD 1 0 := by
  have hr : ∀ x ∈ (Simulator.simulateFuel 1 (Simulator.init 1 2 0 4 0 (-1) 1 3)).distances,
      2 * (1 : ℚ) < x := by
    norm_num [Simulator.simulateFuel, Simulator.stepOnce, Simulator.init, lastElem,
      Simulator.get_dr_dtau]
  refine C8_times_monotone 1 2 0 4 0 (-1) 1 3 1 (by norm_num) (by norm_num) (by norm_num)
    hr 0 ?_
  norm_num [Simulator.simulateFuel, Simulator.stepOnce, Simulator.init, lastElem]

end BlackHoleSim
